import Mathlib

/-!
Verification of the DMOD metric-evaluation core against its design notes.

Each section embeds one part of the Python source as executable Lean
definitions and proves or refutes the corresponding claims.  The embedding
follows the source files under src/python/lib: machine integers become Int
or Nat, floating point values become an explicit extended-rational type,
fallible constructors and calls return Except values.
-/

namespace DMOD

/-- Errors raised by the embedded code paths.  Each constructor stands for one
of the exception sites in the Python source. -/
inductive PyErr where
  | emptyGroup
  | duplicateValue
  | keyError
  | valueError
  | zeroDivision
  deriving DecidableEq, Repr

instance {E A : Type} [DecidableEq E] [DecidableEq A] : DecidableEq (Except E A)
  | .ok a, .ok b =>
    if h : a = b then .isTrue (by rw [h]) else .isFalse (by simp [h])
  | .ok _, .error _ => .isFalse (by simp)
  | .error _, .ok _ => .isFalse (by simp)
  | .error e, .error f =>
    if h : e = f then .isTrue (by rw [h]) else .isFalse (by simp [h])

/-! ## Finite groups: evaluations/utilities/group.py

FiniteGroup.__init__ walks the incoming collection and, for each value,
tests membership with the expression that reads value in group where
group is the constructor argument itself, not the list of values
accumulated so far.  The loop body appends to the private list only after
that test.  The embedding reproduces the loop exactly: the membership test
is performed against the original input collection. -/

/-- The loop body of FiniteGroup.__init__: for each value of the input,
raise the duplicate-value exception when the value is a member of the input
collection itself, otherwise append it to the accumulated list. -/
def finiteGroupFill [DecidableEq T] (original : List T) : List T → Except PyErr (List T)
  | [] => .ok []
  | v :: rest =>
    if v ∈ original then
      .error .duplicateValue
    else
      (finiteGroupFill original rest).map (v :: ·)

/-- FiniteGroup.__init__: reject an empty collection, then run the fill
loop with the membership test aimed at the input collection. -/
def finiteGroupInit [DecidableEq T] (group : List T) : Except PyErr (List T) :=
  if group.isEmpty then
    .error .emptyGroup
  else
    finiteGroupFill group group

/-! ## Bootstrap interval gate: metrics/scoring.py

Metric.__call__ requests an interval only when the filtered frame has more
than 3 rows; Metric.generate_bootstrap_intervals then returns None when the
frame has fewer than 5 rows.  The statistical payload produced by the
external arch and arviz libraries is abstracted as an opaque-to-the-claim
value v passed in by the caller; only the row-count gating is code of this
repository. -/

/-- Metric.generate_bootstrap_intervals: None for fewer than 5 rows,
otherwise the interval computed by the external bootstrap libraries
(represented by the argument v). -/
def generate_bootstrap_intervals (rowCount : Nat) (v : I) : Option I :=
  if rowCount < 5 then none else some v

/-- The interval selection inside Metric.__call__: call
generate_bootstrap_intervals when the filtered frame has more than 3 rows,
otherwise attach no interval. -/
def metric_call_interval (rowCount : Nat) (v : I) : Option I :=
  if rowCount > 3 then generate_bootstrap_intervals rowCount v else none

/-! ## Work distributor: metrics/distributor.py

SynchronousWorkDistributor.perform evaluates the work items inside a list
comprehension with no exception handling.  A work item is embedded as the
Except value its function call produces; the comprehension is the
left-to-right sequencing of those calls, which stops at the first raised
exception and propagates it. -/

/-- The result of SynchronousWorkDistributor.perform: the list comprehension
evaluates items left to right and the first exception escapes the whole
call; no per-item capture exists in the source. -/
def performSync : List (Except E R) → Except E (List R)
  | [] => .ok []
  | item :: rest =>
    match item with
    | .ok r => (performSync rest).map (r :: ·)
    | .error e => .error e

/-- How many of the work items actually start executing before perform
returns: every item up to and including the first one that raises. -/
def executedCount : List (Except E R) → Nat
  | [] => 0
  | .ok _ :: rest => 1 + executedCount rest
  | .error _ :: _ => 1

/-! ## Bounded communicator queue: metrics/communication.py

QueueCommunicator.info acquires the lock, then, while the information queue
is full, removes the oldest entry and fires the expire event with it, and
finally enqueues the new message.  The multiprocessing queue is embedded as
a list in FIFO order; full means the maximum size is positive and reached.
QueueCommunicator.get_info drains the queue in order, re-enqueues the same
entries, and returns the drained copies, so it returns the queue content in
FIFO order. -/

/-- Whether the bounded queue reports full: a zero maximum size means an
unbounded queue that is never full. -/
def queueFull (maximumSize length : Nat) : Bool :=
  0 < maximumSize && maximumSize ≤ length

/-- The eviction loop inside QueueCommunicator.info: while the queue is
full, dequeue the oldest entry and record it as an expire event.  Returns
the remaining queue and the expired messages in eviction order. -/
def evictWhileFull (maximumSize : Nat) : List M → List M × List M
  | [] => ([], [])
  | m :: rest =>
    if queueFull maximumSize (m :: rest).length then
      let (q, expired) := evictWhileFull maximumSize rest
      (q, m :: expired)
    else
      (m :: rest, [])

/-- One successful QueueCommunicator.info write: evict while full, then
enqueue the message at the back. -/
def infoWrite (maximumSize : Nat) (queue : List M) (message : M) : List M × List M :=
  let (q, expired) := evictWhileFull maximumSize queue
  (q ++ [message], expired)

/-- A sequence of successful info writes, accumulating the expire events in
the order the handlers fired. -/
def infoWriteAll (maximumSize : Nat) (queue : List M) : List M → List M × List M
  | [] => (queue, [])
  | m :: rest =>
    let (q1, e1) := infoWrite maximumSize queue m
    let (q2, e2) := infoWriteAll maximumSize q1 rest
    (q2, e1 ++ e2)

/-- QueueCommunicator.get_info: drain the queue in FIFO order, re-enqueue
the entries, and return the drained copies, leaving the state unchanged. -/
def get_info (queue : List M) : List M × List M :=
  (queue, queue)

/-! ## Theorems for claims C1, C3, C9, C10 -/

/-- Claim C1: every non-empty collection handed to the FiniteGroup
constructor, even one whose values are all distinct, raises the
duplicate-value exception, because the uniqueness check tests each incoming
value for membership in the input collection itself, in which it always
lies.  Consequently no FiniteGroup can ever be built, and with it no
GroupMember (which requires a FiniteGroup) and no ClockworkDate or
Months/Hours/Minutes/Seconds singleton (which are built from FiniteGroups). -/
theorem c1_finite_group_always_raises [DecidableEq T] (v : T) (rest : List T) :
    finiteGroupInit (v :: rest) = .error .duplicateValue := by
  simp [finiteGroupInit, finiteGroupFill]

/-- Claim C3, counterexample: a threshold whose filtered frame has exactly 4
rows passes the more-than-3 gate in Metric.__call__, but
generate_bootstrap_intervals then returns None because 4 is fewer than 5, so
the Score carries no interval, contradicting the claim that a 4-row frame
yields one. -/
theorem c3_counterexample : metric_call_interval 4 (0 : Nat) = none := rfl

/-- Claim C3, amended: the Score carries a bootstrap interval exactly when
the filtered frame has at least 5 rows; the more-than-3 gate in
Metric.__call__ is further restricted by the fewer-than-5 early return in
generate_bootstrap_intervals, so 4-row frames yield no interval. -/
theorem c3_amended_interval_iff_at_least_five (n : Nat) (v : I) :
    (metric_call_interval n v).isSome = true ↔ 5 ≤ n := by
  simp only [metric_call_interval, generate_bootstrap_intervals]
  by_cases h3 : n > 3
  · by_cases h5 : n < 5
    · simp [h3, h5]
    · simp [h3, h5]; omega
  · simp [h3]; omega

/-- Claim C9, counterexample: with three work items of which the second
raises, SynchronousWorkDistributor.perform propagates the exception out of
the whole call instead of returning a result sequence with the exception in
the second slot, and the third item is never executed. -/
theorem c9_counterexample :
    performSync [Except.ok 1, Except.error "boom", Except.ok 3] = .error "boom"
    ∧ executedCount [Except.ok 1, Except.error "boom", Except.ok 3] = 2 :=
  ⟨rfl, rfl⟩

/-- Claim C9, amended: an exception raised by one work item propagates out
of perform and aborts the whole call; the items after the failing one are
never executed and no exception is attached to any result slot.  (The
threaded variant gathers without capturing exceptions either, so its await
re-raises the first exception instead of attaching it.) -/
theorem c9_amended_error_aborts (pre post : List (Except E R)) (e : E)
    (h : ∀ x ∈ pre, ∃ r, x = .ok r) :
    performSync (pre ++ .error e :: post) = .error e
    ∧ executedCount (pre ++ .error e :: post) = pre.length + 1 := by
  induction pre with
  | nil => exact ⟨rfl, rfl⟩
  | cons a rest ih =>
    obtain ⟨r, rfl⟩ := h a (by simp)
    obtain ⟨ih1, ih2⟩ := ih (fun x hx => h x (by simp [hx]))
    refine ⟨?_, ?_⟩
    · simp [performSync, ih1, Except.map]
    · simp [executedCount, ih2]; omega

/-- Witness for the amended C9 statement at a concrete three-item list whose
final item raises. -/
theorem c9_amended_witness :
    performSync [Except.ok 1, Except.ok 2, Except.error "boom"] = .error "boom"
    ∧ executedCount [Except.ok 1, Except.ok 2, Except.error "boom"] = 3 :=
  c9_amended_error_aborts [Except.ok 1, Except.ok 2] ([] : List (Except String Nat)) "boom"
    (by simp)

/-- The eviction loop does nothing when the queue is not yet full. -/
theorem evictWhileFull_not_full (maximumSize : Nat) (st : List M)
    (h : st.length < maximumSize) : evictWhileFull maximumSize st = (st, []) := by
  cases st with
  | nil => rfl
  | cons m rest =>
    simp only [List.length_cons] at h
    have hq : queueFull maximumSize (rest.length + 1) = false := by
      simp [queueFull]; omega
    simp [evictWhileFull, hq]

/-- The eviction loop removes exactly the oldest entry when the queue is
exactly full. -/
theorem evictWhileFull_full (maximumSize : Nat) (hd : M) (tl : List M)
    (hpos : 0 < maximumSize) (h : (hd :: tl).length = maximumSize) :
    evictWhileFull maximumSize (hd :: tl) = (tl, [hd]) := by
  simp only [List.length_cons] at h
  have hfull : queueFull maximumSize (tl.length + 1) = true := by
    simp [queueFull]; omega
  have htl : tl.length < maximumSize := by omega
  simp [evictWhileFull, hfull, evictWhileFull_not_full maximumSize tl htl]

/-- The state after any run of info writes from a queue that is within its
bound: the queue holds the newest entries of the combined stream and the
expire events carry the oldest overflowing entries, both in order. -/
theorem infoWriteAll_spec (maximumSize : Nat) (hpos : 0 < maximumSize) :
    ∀ (msgs st : List M), st.length ≤ maximumSize →
      infoWriteAll maximumSize st msgs =
        ((st ++ msgs).drop (st.length + msgs.length - maximumSize),
         (st ++ msgs).take (st.length + msgs.length - maximumSize)) := by
  intro msgs
  induction msgs with
  | nil =>
    intro st hst
    simp only [infoWriteAll, List.append_nil, List.length_nil, Nat.add_zero,
      Nat.sub_eq_zero_of_le hst, List.drop_zero, List.take_zero]
  | cons m rest ih =>
    intro st hst
    rcases Nat.lt_or_ge st.length maximumSize with hlt | hge
    · have hwrite : infoWrite maximumSize st m = (st ++ [m], []) := by
        simp [infoWrite, evictWhileFull_not_full maximumSize st hlt]
      have hlen : (st ++ [m]).length ≤ maximumSize := by simp; omega
      have := ih (st ++ [m]) hlen
      have harith : (st ++ [m]).length + rest.length - maximumSize
          = st.length + (m :: rest).length - maximumSize := by simp; omega
      simp only [infoWriteAll, hwrite, this, harith]
      simp [List.append_assoc]
    · have heq : st.length = maximumSize := Nat.le_antisymm hst hge
      cases st with
      | nil => exact absurd (heq ▸ hpos) (by simp at heq; omega)
      | cons hd tl =>
        have hwrite : infoWrite maximumSize (hd :: tl) m = (tl ++ [m], [hd]) := by
          simp [infoWrite, evictWhileFull_full maximumSize hd tl hpos heq]
        have hlen : (tl ++ [m]).length ≤ maximumSize := by simp at heq ⊢; omega
        have hrec := ih (tl ++ [m]) hlen
        have harith : (tl ++ [m]).length + rest.length - maximumSize = rest.length := by
          simp at heq ⊢; omega
        have harith2 : (hd :: tl).length + (m :: rest).length - maximumSize
            = rest.length + 1 := by simp at heq ⊢; omega
        simp only [infoWriteAll, hwrite, hrec, harith, harith2]
        simp [List.append_assoc, List.drop_succ_cons, List.take_succ_cons]

/-- Claim C10: starting from an empty bounded queue with a positive maximum
size, after maximum_size + k successful info writes the queue holds exactly
the most recent maximum_size messages in FIFO order (what get_info then
returns), and the expire handlers fired exactly k times, once for each of
the k oldest messages in order. -/
theorem c10_fifo_with_eviction (maximumSize k : Nat) (msgs : List M)
    (hpos : 0 < maximumSize) (hlen : msgs.length = maximumSize + k) :
    infoWriteAll maximumSize [] msgs = (msgs.drop k, msgs.take k)
    ∧ get_info (msgs.drop k) = (msgs.drop k, msgs.drop k) := by
  have := infoWriteAll_spec maximumSize hpos msgs [] (by simp)
  have hk : ([] : List M).length + msgs.length - maximumSize = k := by simp [hlen]
  rw [hk] at this
  simpa [get_info] using this

/-- Witness for C10 at the concrete scenario from the design notes: a
communicator bounded at 2, written with three messages; the queue retains
the last two and the expire handler fired once with the first. -/
theorem c10_witness :
    infoWriteAll 2 [] ["a", "b", "c"] = (["b", "c"], ["a"])
    ∧ get_info ["b", "c"] = (["b", "c"], ["b", "c"]) := by
  have h := c10_fifo_with_eviction 2 1 ["a", "b", "c"] (by decide) (by decide)
  simpa using h

/-! ## Python float values for the scoring engine

The scoring code works on Python floats whose special values (nan and the
infinities) steer the control flow of scale_value and Score.failed.  The
embedding keeps the numeric payload exact as a rational and represents the
special values explicitly; every operation mirrors the IEEE behaviour the
Python interpreter exposes (nan propagates, comparisons with nan are false,
division checks the divisor for zero first and raises). -/

/-- A Python float: nan, the infinities, or a finite value kept exact. -/
inductive PyNum where
  | nan
  | ninf
  | pinf
  | fin (q : ℚ)
  deriving DecidableEq, Repr

/-- numpy.isnan. -/
def PyNum.isnan : PyNum → Bool
  | .nan => true
  | _ => false

/-- numpy.isinf. -/
def PyNum.isinf : PyNum → Bool
  | .pinf => true
  | .ninf => true
  | _ => false

/-- The float comparison a < b; false whenever either side is nan. -/
def pyLt : PyNum → PyNum → Bool
  | .nan, _ => false
  | _, .nan => false
  | .ninf, .ninf => false
  | .ninf, _ => true
  | _, .ninf => false
  | .pinf, _ => false
  | .fin _, .pinf => true
  | .fin a, .fin b => decide (a < b)

/-- The float comparison a == b; false whenever either side is nan. -/
def pyEq : PyNum → PyNum → Bool
  | .fin a, .fin b => a == b
  | .ninf, .ninf => true
  | .pinf, .pinf => true
  | _, _ => false

/-- The float comparison a <= b; false whenever either side is nan. -/
def pyLe (a b : PyNum) : Bool :=
  pyLt a b || pyEq a b

/-- Float subtraction with nan propagation and the usual infinity rules. -/
def pySub : PyNum → PyNum → PyNum
  | .nan, _ => .nan
  | _, .nan => .nan
  | .pinf, .pinf => .nan
  | .pinf, _ => .pinf
  | .ninf, .ninf => .nan
  | .ninf, _ => .ninf
  | .fin _, .pinf => .ninf
  | .fin _, .ninf => .pinf
  | .fin a, .fin b => .fin (a - b)

/-- Float addition with nan propagation and the usual infinity rules. -/
def pyAdd : PyNum → PyNum → PyNum
  | .nan, _ => .nan
  | _, .nan => .nan
  | .pinf, .ninf => .nan
  | .ninf, .pinf => .nan
  | .pinf, _ => .pinf
  | _, .pinf => .pinf
  | .ninf, _ => .ninf
  | _, .ninf => .ninf
  | .fin a, .fin b => .fin (a + b)

/-- Float multiplication with nan propagation; zero times infinity is nan. -/
def pyMul : PyNum → PyNum → PyNum
  | .nan, _ => .nan
  | _, .nan => .nan
  | .fin a, .fin b => .fin (a * b)
  | .fin a, .pinf => if a > 0 then .pinf else if a < 0 then .ninf else .nan
  | .fin a, .ninf => if a > 0 then .ninf else if a < 0 then .pinf else .nan
  | .pinf, .fin b => if b > 0 then .pinf else if b < 0 then .ninf else .nan
  | .ninf, .fin b => if b > 0 then .ninf else if b < 0 then .pinf else .nan
  | .pinf, .pinf => .pinf
  | .pinf, .ninf => .ninf
  | .ninf, .pinf => .ninf
  | .ninf, .ninf => .pinf

/-- Float division: a zero divisor raises ZeroDivisionError before anything
else, exactly as the Python interpreter does; otherwise nan propagates and
a finite value divided by an infinity is zero. -/
def pyDiv (a b : PyNum) : Except PyErr PyNum :=
  match a, b with
  | a, .fin q =>
    if q = 0 then .error .zeroDivision
    else
      match a with
      | .nan => .ok .nan
      | .fin p => .ok (.fin (p / q))
      | .pinf => .ok (if q > 0 then .pinf else .ninf)
      | .ninf => .ok (if q > 0 then .ninf else .pinf)
  | .nan, _ => .ok .nan
  | _, .nan => .ok .nan
  | .fin _, .pinf => .ok (.fin 0)
  | .fin _, .ninf => .ok (.fin 0)
  | _, _ => .ok .nan

/-- Float absolute value. -/
def pyAbs : PyNum → PyNum
  | .nan => .nan
  | .pinf => .pinf
  | .ninf => .pinf
  | .fin a => .fin |a|

/-- The comparison of two finite floats reduces to the rational order. -/
theorem pyLt_fin (a b : ℚ) : pyLt (.fin a) (.fin b) = decide (a < b) := rfl

/-- CPython min(a, b): b when b < a, else a. -/
def pyMin (a b : PyNum) : PyNum :=
  if pyLt b a then b else a

/-- CPython max(a, b): b when b > a, else a. -/
def pyMax (a b : PyNum) : PyNum :=
  if pyLt a b then b else a

/-! ## Scoring data model: metrics/scoring.py -/

/-- EPSILON from scoring.py line 75: the default failure tolerance. -/
def EPSILON : ℚ := 1 / 10000

/-- The attributes of a Metric that scale_value and Score.failed read.  The
constructor coerces a missing lower bound to negative infinity, a missing
upper bound to positive infinity and a missing ideal value to nan, so the
fields here are always populated; fails_on stays optional because the code
tests it against None. -/
structure SMetric where
  weight : PyNum
  lower_bound : PyNum
  upper_bound : PyNum
  ideal_value : PyNum
  fails_on : Option PyNum
  deriving DecidableEq, Repr

/-- Metric.has_upper_bound: not nan and strictly below positive infinity. -/
def has_upper_bound (m : SMetric) : Bool :=
  !(m.upper_bound.isnan) && pyLt m.upper_bound .pinf

/-- Metric.has_lower_bound: not nan and strictly above negative infinity. -/
def has_lower_bound (m : SMetric) : Bool :=
  !(m.lower_bound.isnan) && pyLt .ninf m.lower_bound

/-- Metric.has_ideal_value: populated, not nan and not infinite. -/
def has_ideal_value (m : SMetric) : Bool :=
  !(m.ideal_value.isnan) && !(m.ideal_value.isinf)

/-- Metric.bounded: at least one finite bound. -/
def bounded (m : SMetric) : Bool :=
  has_lower_bound m || has_upper_bound m

/-- scale_value from scoring.py: nan passes through; without an ideal value
or any bound the raw value passes through; otherwise a slope-intercept line
is built from the position of the ideal value between the bounds and the
result is clamped at each finite bound. -/
def scale_value (m : SMetric) (raw_value : PyNum) : Except PyErr PyNum :=
  if raw_value.isnan then .ok .nan
  else if !(has_ideal_value m) || !(bounded m) then .ok raw_value
  else
    let riseRun : Int × PyNum :=
      if pyEq m.ideal_value m.lower_bound then
        (-1, pySub m.upper_bound m.lower_bound)
      else if pyEq m.ideal_value m.upper_bound then
        (1, pySub m.upper_bound m.lower_bound)
      else if pyLt m.lower_bound m.ideal_value && pyLt m.ideal_value m.upper_bound
          && pyLe raw_value m.ideal_value then
        (1, pySub m.ideal_value m.lower_bound)
      else if pyLt m.lower_bound m.ideal_value && pyLt m.ideal_value m.upper_bound
          && pyLt m.ideal_value raw_value then
        (-1, pySub m.upper_bound m.ideal_value)
      else
        (0, .fin 1)
    (pyDiv (.fin (riseRun.1 : ℚ)) riseRun.2).map fun slope =>
      let yIntercept := pySub (.fin 1) (pyMul slope m.ideal_value)
      let scaledLine := pyAdd (pyMul slope raw_value) yIntercept
      let clampedAbove := if has_upper_bound m then pyMin scaledLine m.upper_bound else scaledLine
      if has_lower_bound m then pyMax clampedAbove m.lower_bound else clampedAbove

/-- Score.failed from scoring.py: false when fails_on is None; true when
fails_on and the value are both nan; false when only fails_on is nan; and
otherwise true exactly when the absolute difference is below EPSILON. -/
def score_failed (fails_on : Option PyNum) (value : PyNum) : Bool :=
  match fails_on with
  | none => false
  | some f =>
    if f.isnan && value.isnan then true
    else if f.isnan then false
    else pyLt (pyAbs (pySub value f)) (.fin EPSILON)

/-! ## Theorems for claims C2 and C4 -/

/-- Claim C2, counterexample: a metric with bounds -1 and 1/2 and ideal
value 0 scales the raw value 0 (equal to the ideal) to 1/2, not 1.0: the
line yields 1.0 but the final clamp min(1, upper_bound) pulls the value down
to the upper bound because the upper bound is below 1. -/
theorem c2_counterexample :
    scale_value ⟨.fin 1, .fin (-1), .fin (1/2), .fin 0, none⟩ (.fin 0) = .ok (.fin (1/2))
    ∧ scale_value ⟨.fin 1, .fin (-1), .fin (1/2), .fin 0, none⟩ (.fin 0) ≠ .ok (.fin 1) := by
  have key : scale_value ⟨.fin 1, .fin (-1), .fin (1/2), .fin 0, none⟩ (.fin 0)
      = .ok (.fin (1/2)) := by
    rw [scale_value]
    norm_num [PyNum.isnan, has_ideal_value, PyNum.isinf, bounded, has_lower_bound,
      has_upper_bound, pyEq, pyLt, pyLe, pySub, pyAdd, pyMul, pyDiv, pyMin, pyMax,
      Except.map, beq_iff_eq]
  refine ⟨key, ?_⟩
  rw [key]
  simp only [ne_eq, Except.ok.injEq, PyNum.fin.injEq]
  norm_num

/-- Claim C2, amended: for a metric with finite bounds and
lower_bound < ideal_value < upper_bound, scaling the raw value equal to the
ideal yields the line value 1.0 clamped to the bounds, that is
max(lower_bound, min(1, upper_bound)); this equals 1.0 exactly when the
bounds admit 1, and equals the upper bound when the upper bound is below 1. -/
theorem c2_amended_scale_ideal_is_clamped_one (l i u : ℚ) (h1 : l < i) (h2 : i < u) :
    scale_value ⟨.fin 1, .fin l, .fin u, .fin i, none⟩ (.fin i)
      = .ok (.fin (max l (min 1 u))) := by
  have hl : pyEq (.fin i) (.fin l) = false := by
    simp only [pyEq, beq_eq_false_iff_ne, ne_eq]
    exact h1.ne'
  have hu : pyEq (.fin i) (.fin u) = false := by
    simp only [pyEq, beq_eq_false_iff_ne, ne_eq]
    exact h2.ne
  have e1 : pyLt (.fin l) (.fin i) = true := by
    simp only [pyLt, decide_eq_true_eq]
    exact h1
  have e2 : pyLt (.fin i) (.fin u) = true := by
    simp only [pyLt, decide_eq_true_eq]
    exact h2
  have e3 : pyLe (.fin i) (.fin i) = true := by
    simp only [pyLe, pyEq, beq_self_eq_true, Bool.or_true]
  have hcond : (pyLt (.fin l) (.fin i) && pyLt (.fin i) (.fin u)
      && pyLe (.fin i) (.fin i)) = true := by
    rw [e1, e2, e3]
    rfl
  have hne : i - l ≠ 0 := sub_ne_zero.mpr h1.ne'
  have hguards : (!(has_ideal_value ⟨.fin 1, .fin l, .fin u, .fin i, none⟩)
      || !(bounded ⟨.fin 1, .fin l, .fin u, .fin i, none⟩)) = false := rfl
  rw [scale_value]
  rw [show PyNum.isnan (.fin i) = false from rfl]
  rw [hguards]
  simp only [Bool.false_eq_true, if_false, hl, hu, hcond, if_true]
  rw [show pySub (.fin i) (.fin l) = .fin (i - l) from rfl]
  rw [show pyDiv (.fin ((1 : Int) : ℚ)) (.fin (i - l))
      = if i - l = 0 then .error .zeroDivision else .ok (.fin (((1 : Int) : ℚ) / (i - l)))
    from rfl]
  rw [if_neg hne]
  simp only [Except.map]
  rw [show pyMul (.fin (((1 : Int) : ℚ) / (i - l))) (.fin i)
      = .fin ((((1 : Int) : ℚ) / (i - l)) * i) from rfl]
  rw [show pySub (.fin 1) (.fin ((((1 : Int) : ℚ) / (i - l)) * i))
      = .fin (1 - (((1 : Int) : ℚ) / (i - l)) * i) from rfl]
  rw [show pyAdd (.fin ((((1 : Int) : ℚ) / (i - l)) * i))
        (.fin (1 - (((1 : Int) : ℚ) / (i - l)) * i))
      = .fin ((((1 : Int) : ℚ) / (i - l)) * i + (1 - (((1 : Int) : ℚ) / (i - l)) * i))
    from rfl]
  have hline : (((1 : Int) : ℚ) / (i - l)) * i + (1 - (((1 : Int) : ℚ) / (i - l)) * i) = 1 := by
    ring
  rw [hline]
  rw [show has_upper_bound ⟨.fin 1, .fin l, .fin u, .fin i, none⟩ = true from rfl]
  rw [show has_lower_bound ⟨.fin 1, .fin l, .fin u, .fin i, none⟩ = true from rfl]
  simp only [if_true, pyMin, pyMax, pyLt_fin, decide_eq_true_eq]
  rcases lt_or_le u 1 with hu1 | hu1
  · rw [if_pos hu1]
    simp only [pyLt_fin, decide_eq_true_eq]
    rw [if_neg (by linarith : ¬ u < l)]
    rw [min_eq_right hu1.le, max_eq_right (by linarith : l ≤ u)]
  · rw [if_neg (by linarith : ¬ u < 1)]
    simp only [pyLt_fin, decide_eq_true_eq]
    rw [min_eq_left hu1]
    rcases lt_or_le 1 l with hl1 | hl1
    · rw [if_pos hl1, max_eq_left hl1.le]
    · rw [if_neg (by linarith : ¬ (1 : ℚ) < l), max_eq_right hl1]

/-- Witness for the amended C2 statement at the counterexample metric: with
bounds -1 and 1/2 and ideal 0 the scaled result is exactly the clamped
value 1/2. -/
theorem c2_amended_witness :
    scale_value ⟨.fin 1, .fin (-1), .fin (1/2), .fin 0, none⟩ (.fin 0)
      = .ok (.fin (max (-1) (min 1 (1/2)))) :=
  c2_amended_scale_ideal_is_clamped_one (-1) 0 (1/2) (by norm_num) (by norm_num)

/-- Claim C4: for a populated, non-nan fails_on value k, a score fails
exactly when its value is finite and within EPSILON = 1/10000 of k (a nan
or infinite value is never within EPSILON, and likewise fails the
comparison in the code); when fails_on and the value are both nan the score
fails; when fails_on is None the score never fails. -/
theorem c4_failed_characterization :
    (∀ (k : ℚ) (v : PyNum),
        score_failed (some (.fin k)) v = true ↔ ∃ x : ℚ, v = .fin x ∧ |x - k| < EPSILON)
    ∧ score_failed (some .nan) .nan = true
    ∧ (∀ v : PyNum, score_failed none v = false) := by
  refine ⟨?_, rfl, fun v => rfl⟩
  intro k v
  cases v with
  | nan => simp [score_failed, PyNum.isnan, pySub, pyAbs, pyLt]
  | ninf => simp [score_failed, PyNum.isnan, pySub, pyAbs, pyLt]
  | pinf => simp [score_failed, PyNum.isnan, pySub, pyAbs, pyLt]
  | fin x => simp [score_failed, PyNum.isnan, pySub, pyAbs, pyLt]

/-! ## RelativeDuration: evaluations/utilities/duration.py

The constructor stores integer fields and normalizes them: seconds roll up
into minutes, minutes into hours, hours into days, and months into years,
all with Python divmod (floor) semantics; days never roll into months.  All
divisors are positive, so Python divmod coincides with the Euclidean
division and modulo used here.  The fractional-spill branches of
__normalize never fire for integer fields and round is the identity on
integers, so they have no counterpart in the embedding. -/

/-- A RelativeDuration as stored: six integer fields. -/
structure PyDuration where
  years : Int
  months : Int
  days : Int
  hours : Int
  minutes : Int
  seconds : Int
  deriving DecidableEq, Repr

/-- RelativeDuration.__normalize for integer fields: divmod roll-ups from
seconds through days, and months into years; days do not roll into months. -/
def normalizeDuration (d : PyDuration) : PyDuration :=
  let minutesFromSeconds := d.seconds / 60
  let seconds := d.seconds % 60
  let minutes := d.minutes + minutesFromSeconds
  let hoursFromMinutes := minutes / 60
  let minutesLeft := minutes % 60
  let hours := d.hours + hoursFromMinutes
  let daysFromHours := hours / 24
  let hoursLeft := hours % 24
  let days := d.days + daysFromHours
  let yearsFromMonths := d.months / 12
  let monthsLeft := d.months % 12
  let years := d.years + yearsFromMonths
  ⟨years, monthsLeft, days, hoursLeft, minutesLeft, seconds⟩

/-- RelativeDuration.__init__ with integer arguments: store and normalize. -/
def durationInit (years months days hours minutes seconds : Int) : PyDuration :=
  normalizeDuration ⟨years, months, days, hours, minutes, seconds⟩

/-- RelativeDuration.total_months. -/
def PyDuration.total_months (d : PyDuration) : Int :=
  d.months + d.years * 12

/-- RelativeDuration.total_seconds. -/
def PyDuration.total_seconds (d : PyDuration) : Int :=
  d.days * 86400 + d.hours * 3600 + d.minutes * 60 + d.seconds

/-- RelativeDuration.__eq__: equality of total_months and total_seconds. -/
def durationEq (a b : PyDuration) : Bool :=
  a.total_months == b.total_months && a.total_seconds == b.total_seconds

/-- Python str for an integer. -/
def intRepr (i : Int) : String :=
  if i < 0 then "-" ++ Nat.repr (-i).toNat else Nat.repr i.toNat

/-- RelativeDuration.__str__: PT0S for the zero duration, otherwise P
followed by each non-zero field with its unit letter.  The days segment is
emitted exactly as the source writes it: the number alone, with no D
suffix. -/
def PyDuration.str (d : PyDuration) : String :=
  if d.total_months == 0 && d.total_seconds == 0 then "PT0S"
  else
    "P"
    ++ (if d.years ≠ 0 then intRepr d.years ++ "Y" else "")
    ++ (if d.months ≠ 0 then intRepr d.months ++ "M" else "")
    ++ (if d.days ≠ 0 then intRepr d.days else "")
    ++ (if d.hours ≠ 0 ∨ d.minutes ≠ 0 ∨ d.seconds ≠ 0 then "T" else "")
    ++ (if d.hours ≠ 0 then intRepr d.hours ++ "H" else "")
    ++ (if d.minutes ≠ 0 then intRepr d.minutes ++ "M" else "")
    ++ (if d.seconds ≠ 0 then intRepr d.seconds ++ "S" else "")

/-- The numeric value of a run of decimal digit characters. -/
def natFromDigits (ds : List Char) : Nat :=
  ds.foldl (fun n c => n * 10 + (c.toNat - 48)) 0

/-- One optional unit group of DURATION_PATTERN: digits directly followed by
the unit letter capture a number and the optional letter is consumed;
otherwise the group fails and the optional letter alone is consumed when it
is the next character. -/
def matchUnit (unit : Char) (cs : List Char) : Option Nat × List Char :=
  let ds := cs.takeWhile (·.isDigit)
  let rest := cs.drop ds.length
  if ds ≠ [] ∧ rest.head? = some unit then
    (some (natFromDigits ds), rest.tail)
  else if cs.head? = some unit then
    (none, cs.tail)
  else
    (none, cs)

/-- The final seconds group of DURATION_PATTERN: digits with an optional
fractional part, looked ahead by S; the value is the integer part, and the
pattern ends without consuming the S. -/
def matchSecondsGroup (cs : List Char) : Option Nat :=
  let ds := cs.takeWhile (·.isDigit)
  let rest := cs.drop ds.length
  let restAfterFraction :=
    if rest.head? = some '.' ∧ rest.tail.takeWhile (·.isDigit) ≠ [] then
      rest.tail.drop (rest.tail.takeWhile (·.isDigit)).length
    else rest
  if ds ≠ [] ∧ restAfterFraction.head? = some 'S' then some (natFromDigits ds) else none

/-- An optional literal character of the pattern, such as T. -/
def consumeOpt (c : Char) (cs : List Char) : List Char :=
  if cs.head? = some c then cs.tail else cs

/-- RelativeDuration.from_string: re.search anchors the match right after
the first P (every group being optional, the match always succeeds there);
the six groups are read in order and the constructor normalizes.  Without
any P the source dereferences a missing match and crashes; that is none
here. -/
def from_string (s : String) : Option PyDuration :=
  match s.toList.dropWhile (· ≠ 'P') with
  | [] => none
  | _ :: afterP =>
    let yearsRest := matchUnit 'Y' afterP
    let monthsRest := matchUnit 'M' yearsRest.2
    let daysRest := matchUnit 'D' monthsRest.2
    let afterT := consumeOpt 'T' daysRest.2
    let hoursRest := matchUnit 'H' afterT
    let minutesRest := matchUnit 'M' hoursRest.2
    let seconds := matchSecondsGroup minutesRest.2
    some (durationInit ((yearsRest.1.getD 0 : Nat) : Int) (monthsRest.1.getD 0 : Nat)
      (daysRest.1.getD 0 : Nat) (hoursRest.1.getD 0 : Nat) (minutesRest.1.getD 0 : Nat)
      (seconds.getD 0 : Nat))

/-! ## ClockworkDate: evaluations/utilities/date.py

A ClockworkDate is a chain of group members: a Year object, a Month object,
a day member pointing into the day group of the month it was last parented
to, and hour, minute and second members over the fixed Hours (0..23),
Minutes (0..59) and Seconds (0..59) groups.  For those fixed groups the
member index equals the member value, and every day group is 1..n so the
day value is the index plus one.  The dayGroupLen field records the length
of the group the day member currently points to (the member keeps its group
reference until switch_group is called).

Two behaviours of the source are reproduced exactly because the claims
hinge on them:
  - MonthsOfYear.__getitem__ with an integer index returns
    raw_value(index), the month at the ZERO-BASED position of the list
    [Month(1), ..., Month(12)], so integer index 1 yields February;
  - __increment_month declares amount with a default of 0 (its docstring
    says 1) and guards only against None, so the call the day rollover
    handler makes, __increment_month(day), leaves the month unchanged.

Python divmod and modulo have floor semantics; every divisor here (12, 24,
60) is positive, so Int division and emod used below coincide with them. -/

/-- Month.__call__ and Year.is_leap_year test year % 4 == 0 (the source
does not apply the full Gregorian rule). -/
def isLeapYear (year : Int) : Bool :=
  year % 4 == 0

/-- The number of days in a month group, from calendar.monthrange on the
leap year 2020 or the normal year 2021.  Month numbers outside 1..12 never
arise (the callers reduce the index first); the catch-all keeps the
function total. -/
def daysInMonth (year : Int) (monthNumber : Nat) : Nat :=
  match monthNumber with
  | 2 => if isLeapYear year then 29 else 28
  | 4 => 30
  | 6 => 30
  | 9 => 30
  | 11 => 30
  | _ => 31

/-- The state of a ClockworkDate. -/
structure CWDate where
  year : Int
  month : Nat
  dayIndex : Nat
  dayGroupLen : Nat
  hour : Nat
  minute : Nat
  second : Nat
  deriving DecidableEq, Repr

/-- The day-of-month property: day groups run 1..n, so the value is the
index plus one. -/
def CWDate.day (c : CWDate) : Nat :=
  c.dayIndex + 1

/-- ClockworkDate.__update_month: choose the day index for the new month
(the original day when the new month allows it; the last day when the day
sat on the old month maximum and exceeds the new month maximum; otherwise
the current index), then switch the month and re-parent the day member,
switch_group reducing the index modulo the new group length. -/
def updateMonth (initialDayIndex : Nat) (c : CWDate) (newMonthNumber : Nat) : CWDate :=
  let dim := daysInMonth c.year newMonthNumber
  let dayIdx :=
    if initialDayIndex ≤ dim - 1 then initialDayIndex
    else if c.dayIndex + 1 = daysInMonth c.year c.month ∧ dim < c.dayIndex + 1 then dim - 1
    else c.dayIndex
  { c with month := newMonthNumber, dayIndex := dayIdx % dim, dayGroupLen := dim }

/-- The while loop of ClockworkDate.__increment_month: step to the next
month, rolling the year forward past December, and update the day member
against the day index recorded when the operation started. -/
def incrementMonthsLoop (initialDayIndex : Nat) : CWDate → Nat → CWDate
  | c, 0 => c
  | c, n + 1 =>
    let stepped :=
      if c.month + 1 > 12 then
        updateMonth initialDayIndex { c with year := c.year + 1 } 1
      else
        updateMonth initialDayIndex c (c.month + 1)
    incrementMonthsLoop initialDayIndex stepped n

/-- ClockworkDate.__increment_month: record the starting day index and loop
while the amount is positive.  The amount parameter defaults to 0 and only
None is coerced to 1, so the rollover call that omits the amount loops zero
times. -/
def incrementMonths (c : CWDate) (amount : Int) : CWDate :=
  incrementMonthsLoop c.dayIndex c amount.toNat

/-- One GroupMember.increment step of the day member: past the final index
of its current group the index resets to 0 and __day_rolled_over fires,
which calls __increment_month with the default amount of 0, leaving the
month untouched. -/
def incDay (c : CWDate) : CWDate :=
  if c.dayIndex + 1 > c.dayGroupLen - 1 then
    incrementMonths { c with dayIndex := 0 } 0
  else
    { c with dayIndex := c.dayIndex + 1 }

/-- One GroupMember.decrement step of the day member; __day_rolled_back
likewise calls the month decrement with the default amount of 0, a no-op. -/
def decDay (c : CWDate) : CWDate :=
  if c.dayIndex = 0 then
    { c with dayIndex := c.dayGroupLen - 1 }
  else
    { c with dayIndex := c.dayIndex - 1 }

/-- One increment step of the hour member; rolling over 23 increments the
day. -/
def incHour (c : CWDate) : CWDate :=
  if c.hour + 1 > 23 then incDay { c with hour := 0 } else { c with hour := c.hour + 1 }

/-- One decrement step of the hour member; rolling below 0 decrements the
day. -/
def decHour (c : CWDate) : CWDate :=
  if c.hour = 0 then decDay { c with hour := 23 } else { c with hour := c.hour - 1 }

/-- One increment step of the minute member; rolling over 59 increments the
hour. -/
def incMinute (c : CWDate) : CWDate :=
  if c.minute + 1 > 59 then incHour { c with minute := 0 } else { c with minute := c.minute + 1 }

/-- One decrement step of the minute member; rolling below 0 decrements the
hour. -/
def decMinute (c : CWDate) : CWDate :=
  if c.minute = 0 then decHour { c with minute := 59 } else { c with minute := c.minute - 1 }

/-- One increment step of the second member; rolling over 59 increments the
minute. -/
def incSecond (c : CWDate) : CWDate :=
  if c.second + 1 > 59 then incMinute { c with second := 0 } else { c with second := c.second + 1 }

/-- One decrement step of the second member; rolling below 0 decrements the
minute. -/
def decSecond (c : CWDate) : CWDate :=
  if c.second = 0 then decMinute { c with second := 59 } else { c with second := c.second - 1 }

/-- GroupMember.increment iterated on the day member. -/
def incDayBy (c : CWDate) : Nat → CWDate
  | 0 => c
  | n + 1 => incDayBy (incDay c) n

/-- GroupMember.decrement iterated on the day member. -/
def decDayBy (c : CWDate) : Nat → CWDate
  | 0 => c
  | n + 1 => decDayBy (decDay c) n

/-- GroupMember.increment iterated on the hour member. -/
def incHourBy (c : CWDate) : Nat → CWDate
  | 0 => c
  | n + 1 => incHourBy (incHour c) n

/-- GroupMember.decrement iterated on the hour member. -/
def decHourBy (c : CWDate) : Nat → CWDate
  | 0 => c
  | n + 1 => decHourBy (decHour c) n

/-- GroupMember.increment iterated on the minute member. -/
def incMinuteBy (c : CWDate) : Nat → CWDate
  | 0 => c
  | n + 1 => incMinuteBy (incMinute c) n

/-- GroupMember.decrement iterated on the minute member. -/
def decMinuteBy (c : CWDate) : Nat → CWDate
  | 0 => c
  | n + 1 => decMinuteBy (decMinute c) n

/-- GroupMember.increment iterated on the second member. -/
def incSecondBy (c : CWDate) : Nat → CWDate
  | 0 => c
  | n + 1 => incSecondBy (incSecond c) n

/-- GroupMember.decrement iterated on the second member. -/
def decSecondBy (c : CWDate) : Nat → CWDate
  | 0 => c
  | n + 1 => decSecondBy (decSecond c) n

/-- GroupMember.increment with an integer amount: negative amounts delegate
to decrement of the absolute value. -/
def incDaySigned (c : CWDate) (amount : Int) : CWDate :=
  if amount < 0 then decDayBy c (-amount).toNat else incDayBy c amount.toNat

/-- Signed increment of the hour member. -/
def incHourSigned (c : CWDate) (amount : Int) : CWDate :=
  if amount < 0 then decHourBy c (-amount).toNat else incHourBy c amount.toNat

/-- Signed increment of the minute member. -/
def incMinuteSigned (c : CWDate) (amount : Int) : CWDate :=
  if amount < 0 then decMinuteBy c (-amount).toNat else incMinuteBy c amount.toNat

/-- Signed increment of the second member. -/
def incSecondSigned (c : CWDate) (amount : Int) : CWDate :=
  if amount < 0 then decSecondBy c (-amount).toNat else incSecondBy c amount.toNat

/-- MonthsOfYear.__getitem__ with an integer index: raw_value reduces the
index modulo 12 and returns the month at that zero-based position of
[Month(1), ..., Month(12)], whose number is the position plus one.  A
missing month argument is looked up as index 1 and yields February. -/
def monthsGetItem (index : Option Int) : Nat :=
  match index with
  | some i => (i % 12).toNat + 1
  | none => 2

/-- FiniteGroup.__call__ for the Hours, Minutes and Seconds groups: a
missing value points at index 0; otherwise index_of finds the value, and
in those groups the index equals the value (the constructor only passes
divmod remainders, which lie in range). -/
def memberIndex (value : Option Int) : Nat :=
  match value with
  | some v => v.toNat
  | none => 0

/-- FiniteGroup.__call__ for a day group 1..dim: a missing value points at
index 0; a value inside the group sits at index value - 1; any other value
raises KeyError from index_of. -/
def dayIndexOf (value : Option Int) (dim : Nat) : Except PyErr Nat :=
  match value with
  | none => .ok 0
  | some dv => if 1 ≤ dv ∧ dv ≤ (dim : Int) then .ok (dv - 1).toNat else .error .keyError

/-- ClockworkDate.__init__ with the year supplied: divmod an integer month
into extra years and a month index, divmod the seconds, minutes and hours
into carries and remainders, clamp an oversized day to the month maximum
recording the excess, build the members, and apply the second, minute,
hour and day carries through the chained increment logic (each carry is
applied to its own member, as the source does). -/
def clockworkInit (year : Int) (month day hour minute second : Option Int) :
    Except PyErr CWDate :=
  let yearsFromMonths : Int := match month with | some m => m / 12 | none => 0
  let monthIndex : Option Int := match month with | some m => some (m % 12) | none => none
  let fullYear := year + yearsFromMonths
  let monthNumber := monthsGetItem monthIndex
  let secPair : Int × Option Int := match second with
    | some s => (s / 60, some (s % 60))
    | none => (0, none)
  let minPair : Int × Option Int := match minute with
    | some mi => (mi / 60, some (mi % 60))
    | none => (0, none)
  let hourPair : Int × Option Int := match hour with
    | some h => (h / 24, some (h % 24))
    | none => (0, none)
  let dim := daysInMonth fullYear monthNumber
  let dayPair : Int × Option Int := match day with
    | some dv => if dv > (dim : Int) then (dv - dim, some (dim : Int)) else (0, some dv)
    | none => (0, none)
  (dayIndexOf dayPair.2 dim).map fun dayIdx =>
    let base : CWDate :=
      { year := fullYear, month := monthNumber, dayIndex := dayIdx, dayGroupLen := dim,
        hour := memberIndex hourPair.2, minute := memberIndex minPair.2,
        second := memberIndex secPair.2 }
    let afterSeconds := incSecondSigned base secPair.1
    let afterMinutes := incMinuteSigned afterSeconds minPair.1
    let afterHours := incHourSigned afterMinutes hourPair.1
    incDaySigned afterHours dayPair.1

/-- ClockworkDate.__add__ with a RelativeDuration: builds a NEW date from
the sums of the year, month, day, minute and second components.  No hour
argument is passed, and neither the hour of the date nor the hours of the
duration is read. -/
def clockAdd (c : CWDate) (d : PyDuration) : Except PyErr CWDate :=
  clockworkInit (c.year + d.years) (some ((c.month : Int) + d.months))
    (some ((c.day : Int) + d.days)) none (some ((c.minute : Int) + d.minutes))
    (some ((c.second : Int) + d.seconds))

/-- ClockworkDate.__iadd__ with a RelativeDuration, via
__add_relative_duration: mutate the members in order, seconds, minutes,
hours, days, then the months loop and a plain year addition. -/
def clockIAdd (c : CWDate) (d : PyDuration) : CWDate :=
  let afterSeconds := incSecondSigned c d.seconds
  let afterMinutes := incMinuteSigned afterSeconds d.minutes
  let afterHours := incHourSigned afterMinutes d.hours
  let afterDays := incDaySigned afterHours d.days
  let afterMonths := incrementMonths afterDays d.months
  { afterMonths with year := afterMonths.year + d.years }

/-- ClockworkDate.__eq__: componentwise comparison of the six properties. -/
def clockEq (a b : CWDate) : Bool :=
  a.year == b.year && a.month == b.month && a.day == b.day
    && a.hour == b.hour && a.minute == b.minute && a.second == b.second

/-! ## Theorems for claims C6 and C7 -/

/-- A successful Except.map run comes from a successful inner value. -/
theorem exceptMap_ok {E A B : Type} (f : A → B) (x : Except E A) (r : B)
    (h : x.map f = .ok r) : ∃ a, x = .ok a ∧ r = f a := by
  cases x with
  | ok a =>
    refine ⟨a, rfl, ?_⟩
    simpa [Except.map] using h.symm
  | error e => simp [Except.map] at h

/-- The month increment with the default amount of 0 is a no-op. -/
theorem incrementMonths_zero (c : CWDate) : incrementMonths c 0 = c := rfl

/-- A day increment never touches the hour member: its rollover handler
only re-enters the month logic with the no-op default amount. -/
theorem incDay_hour (c : CWDate) : (incDay c).hour = c.hour := by
  unfold incDay
  split
  · rfl
  · rfl

/-- A day decrement never touches the hour member. -/
theorem decDay_hour (c : CWDate) : (decDay c).hour = c.hour := by
  unfold decDay
  split
  · rfl
  · rfl

/-- Iterated day increments never touch the hour member. -/
theorem incDayBy_hour (c : CWDate) (n : Nat) : (incDayBy c n).hour = c.hour := by
  induction n generalizing c with
  | zero => rfl
  | succ n ih =>
    show (incDayBy (incDay c) n).hour = c.hour
    rw [ih (incDay c), incDay_hour]

/-- Iterated day decrements never touch the hour member. -/
theorem decDayBy_hour (c : CWDate) (n : Nat) : (decDayBy c n).hour = c.hour := by
  induction n generalizing c with
  | zero => rfl
  | succ n ih =>
    show (decDayBy (decDay c) n).hour = c.hour
    rw [ih (decDay c), decDay_hour]

/-- Signed day increments never touch the hour member. -/
theorem incDaySigned_hour (c : CWDate) (amount : Int) :
    (incDaySigned c amount).hour = c.hour := by
  unfold incDaySigned
  split
  · exact decDayBy_hour c _
  · exact incDayBy_hour c _

/-- Re-parenting the day member to a new month never touches the hour. -/
theorem updateMonth_hour (i : Nat) (c : CWDate) (m : Nat) :
    (updateMonth i c m).hour = c.hour := rfl

/-- The month increment loop never touches the hour member. -/
theorem incrementMonthsLoop_hour (n i : Nat) (c : CWDate) :
    (incrementMonthsLoop i c n).hour = c.hour := by
  induction n generalizing c with
  | zero => rfl
  | succ n ih =>
    show (incrementMonthsLoop i
      (if c.month + 1 > 12 then updateMonth i { c with year := c.year + 1 } 1
        else updateMonth i c (c.month + 1)) n).hour = c.hour
    rw [ih]
    split
    · rfl
    · rfl

/-- The month increment never touches the hour member. -/
theorem incrementMonths_hour (c : CWDate) (amount : Int) :
    (incrementMonths c amount).hour = c.hour :=
  incrementMonthsLoop_hour _ _ _

/-- An hour increment advances the hour modulo 24 (its rollover only
increments the day, which leaves the hour alone). -/
theorem incHour_hour (c : CWDate) (h : c.hour < 24) :
    (incHour c).hour = (c.hour + 1) % 24 := by
  unfold incHour
  split_ifs with h1
  · rw [incDay_hour]
    have hz : ({ c with hour := 0 } : CWDate).hour = 0 := rfl
    rw [hz]
    omega
  · have : ({ c with hour := c.hour + 1 } : CWDate).hour = c.hour + 1 := rfl
    rw [this]
    omega

/-- Iterated hour increments advance the hour modulo 24. -/
theorem incHourBy_hour (c : CWDate) (n : Nat) (h : c.hour < 24) :
    (incHourBy c n).hour = (c.hour + n) % 24 := by
  induction n generalizing c with
  | zero =>
    show c.hour = (c.hour + 0) % 24
    omega
  | succ n ih =>
    show (incHourBy (incHour c) n).hour = (c.hour + (n + 1)) % 24
    have hlt : (incHour c).hour < 24 := by
      rw [incHour_hour c h]
      omega
    rw [ih (incHour c) hlt, incHour_hour c h]
    omega

/-- A run of second increments that stays below the rollover threshold just
adds to the second member. -/
theorem incSecondBy_no_carry (c : CWDate) (n : Nat) (h : c.second + n < 60) :
    incSecondBy c n = { c with second := c.second + n } := by
  induction n generalizing c with
  | zero => rfl
  | succ n ih =>
    show incSecondBy (incSecond c) n = _
    have hstep : incSecond c = { c with second := c.second + 1 } := by
      unfold incSecond
      rw [if_neg (by omega : ¬ c.second + 1 > 59)]
    rw [hstep, ih { c with second := c.second + 1 } (by simp; omega)]
    cases c
    simp
    omega

/-- A run of minute increments that stays below the rollover threshold just
adds to the minute member. -/
theorem incMinuteBy_no_carry (c : CWDate) (n : Nat) (h : c.minute + n < 60) :
    incMinuteBy c n = { c with minute := c.minute + n } := by
  induction n generalizing c with
  | zero => rfl
  | succ n ih =>
    show incMinuteBy (incMinute c) n = _
    have hstep : incMinute c = { c with minute := c.minute + 1 } := by
      unfold incMinute
      rw [if_neg (by omega : ¬ c.minute + 1 > 59)]
    rw [hstep, ih { c with minute := c.minute + 1 } (by simp; omega)]
    cases c
    simp
    omega

/-- A signed second increment of 0 is the identity. -/
theorem incSecondSigned_zero (c : CWDate) : incSecondSigned c 0 = c := rfl

/-- A signed minute increment of 0 is the identity. -/
theorem incMinuteSigned_zero (c : CWDate) : incMinuteSigned c 0 = c := rfl

/-- A signed hour increment of 0 is the identity. -/
theorem incHourSigned_zero (c : CWDate) : incHourSigned c 0 = c := rfl

/-- Overwriting the year field leaves the hour member alone. -/
theorem setYear_hour (c : CWDate) (y : Int) : ({ c with year := y } : CWDate).hour = c.hour :=
  rfl

/-- Claim C6: the spec scenario fails on the code.  ClockworkDate(2020,1,31)
is already not January 31: integer month lookup is zero-based, so month 1
resolves to February, the day clamps to 29 and the two excess days wrap
around (the rollover never increments the month because __increment_month
defaults its amount to 0), landing on 2020-02-02; adding one month then
builds month index 3 = April, giving 2020-04-02, while the expected
ClockworkDate(2020,2,29) builds 2020-03-29 — the two differ.  Adding two
months gives 2020-05-02 against an expected 2020-04-01, differing again. -/
theorem c6_month_addition_diverges :
    clockworkInit 2020 (some 1) (some 31) none none none
      = .ok ⟨2020, 2, 1, 29, 0, 0, 0⟩
    ∧ clockAdd ⟨2020, 2, 1, 29, 0, 0, 0⟩ ⟨0, 1, 0, 0, 0, 0⟩ = .ok ⟨2020, 4, 1, 30, 0, 0, 0⟩
    ∧ clockworkInit 2020 (some 2) (some 29) none none none
      = .ok ⟨2020, 3, 28, 31, 0, 0, 0⟩
    ∧ clockEq ⟨2020, 4, 1, 30, 0, 0, 0⟩ ⟨2020, 3, 28, 31, 0, 0, 0⟩ = false
    ∧ clockAdd ⟨2020, 2, 1, 29, 0, 0, 0⟩ ⟨0, 2, 0, 0, 0, 0⟩ = .ok ⟨2020, 5, 1, 31, 0, 0, 0⟩
    ∧ clockworkInit 2020 (some 3) (some 31) none none none
      = .ok ⟨2020, 4, 0, 30, 0, 0, 0⟩
    ∧ clockEq ⟨2020, 5, 1, 31, 0, 0, 0⟩ ⟨2020, 4, 0, 30, 0, 0, 0⟩ = false := by
  decide

/-- Claim C7: non-mutating addition constructs the result without passing
any hour, so the result is independent of the hour of the date and the
hours of the duration (first conjunct, an equality of whole results), and
when the added minutes and seconds produce no carry the resulting hour is
exactly 0 (second conjunct); in-place addition instead increments the hour
member by the hours of the duration starting from the hour of the date
(third conjunct, under the same no-carry conditions). -/
theorem c7_add_ignores_hours :
    (∀ (c : CWDate) (d : PyDuration) (h : Nat) (hrs : Int),
        clockAdd { c with hour := h } { d with hours := hrs } = clockAdd c d)
    ∧ (∀ (c : CWDate) (d : PyDuration) (r : CWDate),
        0 ≤ d.seconds → 0 ≤ d.minutes →
        (c.second : Int) + d.seconds < 60 → (c.minute : Int) + d.minutes < 60 →
        clockAdd c d = .ok r → r.hour = 0)
    ∧ (∀ (c : CWDate) (d : PyDuration),
        c.hour < 24 → 0 ≤ d.seconds → 0 ≤ d.minutes → 0 ≤ d.hours →
        (c.second : Int) + d.seconds < 60 → (c.minute : Int) + d.minutes < 60 →
        (clockIAdd c d).hour = (c.hour + d.hours.toNat) % 24) := by
  refine ⟨fun c d h hrs => rfl, ?_, ?_⟩
  · intro c d r hs hm hsum hmsum heq
    have hs0 : ((c.second : Int) + d.seconds) / 60 = 0 :=
      Int.ediv_eq_zero_of_lt (by omega) hsum
    have hm0 : ((c.minute : Int) + d.minutes) / 60 = 0 :=
      Int.ediv_eq_zero_of_lt (by omega) hmsum
    simp only [clockAdd, clockworkInit] at heq
    rw [hs0, hm0] at heq
    obtain ⟨idx, _, hr⟩ := exceptMap_ok _ _ _ heq
    rw [hr, incDaySigned_hour, incHourSigned_zero, incMinuteSigned_zero, incSecondSigned_zero]
    rfl
  · intro c d hh hs hm hhrs hsum hmsum
    have e1 : incSecondSigned c d.seconds = { c with second := c.second + d.seconds.toNat } := by
      unfold incSecondSigned
      rw [if_neg (by omega : ¬ d.seconds < 0)]
      exact incSecondBy_no_carry c d.seconds.toNat (by omega)
    have e2 : incMinuteSigned { c with second := c.second + d.seconds.toNat } d.minutes
        = { c with second := c.second + d.seconds.toNat, minute := c.minute + d.minutes.toNat } := by
      unfold incMinuteSigned
      rw [if_neg (by omega : ¬ d.minutes < 0)]
      rw [incMinuteBy_no_carry _ d.minutes.toNat (by simp; omega)]
    have e3 : incHourSigned
          { c with second := c.second + d.seconds.toNat, minute := c.minute + d.minutes.toNat }
          d.hours
        = incHourBy
          { c with second := c.second + d.seconds.toNat, minute := c.minute + d.minutes.toNat }
          d.hours.toNat := by
      unfold incHourSigned
      rw [if_neg (by omega : ¬ d.hours < 0)]
    show ({ incrementMonths (incDaySigned (incHourSigned (incMinuteSigned
        (incSecondSigned c d.seconds) d.minutes) d.hours) d.days) d.months
          with year := _ } : CWDate).hour = _
    rw [setYear_hour, incrementMonths_hour, incDaySigned_hour, e1, e2, e3]
    rw [incHourBy_hour _ _ (by simp; omega)]

/-- Witness for C7 at a concrete date and duration: adding three hours in
place to a date at hour 5 yields hour 8. -/
theorem c7_witness :
    (clockIAdd ⟨2020, 1, 0, 31, 5, 10, 20⟩ ⟨0, 0, 0, 3, 0, 0⟩).hour
      = (5 + (3 : Int).toNat) % 24 :=
  c7_add_ignores_hours.2.2 ⟨2020, 1, 0, 31, 5, 10, 20⟩ ⟨0, 0, 0, 3, 0, 0⟩
    (by decide) (by decide) (by decide) (by decide) (by decide) (by decide)

/-- Claim C5: the one-day duration P1D is normalized, but __str__ emits its
days field without the D unit letter, producing P1; from_string finds no
unit letter in P1 and parses every group as empty, yielding the zero
duration, which does not equal one day.  The round trip therefore fails for
every duration with a non-zero days component, against the documented
canonical ISO 8601 emission. -/
theorem c5_day_unit_dropped_breaks_roundtrip :
    normalizeDuration ⟨0, 0, 1, 0, 0, 0⟩ = ⟨0, 0, 1, 0, 0, 0⟩
    ∧ PyDuration.str ⟨0, 0, 1, 0, 0, 0⟩ = "P1"
    ∧ from_string (PyDuration.str ⟨0, 0, 1, 0, 0, 0⟩) = some ⟨0, 0, 0, 0, 0, 0⟩
    ∧ durationEq ⟨0, 0, 1, 0, 0, 0⟩ ⟨0, 0, 0, 0, 0, 0⟩ = false := by
  refine ⟨by decide, by decide, by decide, by decide⟩

/-! ## Event router: core/events/base_function.py and core/events/router.py

A Signature is an ordered list of parameter descriptors.  Registration of a
handler for a declared event checks Signature.complies_with; a
non-compliant handler lands in the invalid list and register_handler raises
ValueError.  EventRouter.__prepare_call moves leading positional arguments
into keyword slots named after the DECLARED parameters, starting with the
first parameter (which is the event parameter itself), and stores them only
in the Event object; the handlers themselves are invoked by
EventFunctionGroup.trigger with the original positional and keyword
arguments. -/

/-- One EventFunctionParameter: the fields complies_with and
__prepare_call read. -/
structure EvParam where
  name : String
  required : Bool := false
  isArgs : Bool := false
  isKwargs : Bool := false
  positionalOnly : Bool := false
  keywordOnly : Bool := false
  deriving DecidableEq, Repr

/-- Signature.has_args. -/
def sigHasArgs (ps : List EvParam) : Bool :=
  ps.any (·.isArgs)

/-- Signature.has_kwargs. -/
def sigHasKwargs (ps : List EvParam) : Bool :=
  ps.any (·.isKwargs)

/-- Signature.keywords: the names of the parameters that are not
positional-only. -/
def sigKeywords (ps : List EvParam) : List String :=
  (ps.filter (fun p => !p.positionalOnly)).map (·.name)

/-- Signature.required_keywords: the names of the required parameters that
are not positional-only. -/
def sigRequiredKeywords (ps : List EvParam) : List String :=
  (ps.filter (fun p => !p.positionalOnly && p.required)).map (·.name)

/-- Signature.is_universal: exactly a variadic positional followed by a
variadic keyword. -/
def sigIsUniversal : List EvParam → Bool
  | [a, b] => a.isArgs && b.isKwargs
  | _ => false

/-- Signature.required_variable_count: the length of the leading run of
required parameters. -/
def requiredVariableCount : List EvParam → Nat
  | [] => 0
  | p :: rest => if p.required then 1 + requiredVariableCount rest else 0

/-- Signature.complies_with, clause for clause from the source: a universal
expectation admits only universal candidates; a universal candidate admits
anything; the candidate must offer *args and **kwargs when the expectation
has them; the candidate keywords must sit inside the expected REQUIRED
keywords unless the candidate has **kwargs; with no variadics anywhere the
leading required counts must agree. -/
def compliesWith (s expected : List EvParam) : Bool :=
  if sigIsUniversal expected && !(sigIsUniversal s) then false
  else if sigIsUniversal s then true
  else if !(sigHasArgs s) && sigHasArgs expected then false
  else if !(sigHasKwargs s) && sigHasKwargs expected then false
  else if !((sigKeywords s).all (fun n => (sigRequiredKeywords expected).contains n))
      && !(sigHasKwargs s) then false
  else if !(sigHasKwargs s || sigHasKwargs expected || sigHasArgs s || sigHasArgs expected)
      && requiredVariableCount s != requiredVariableCount expected then false
  else true

/-- EventRouter.register_handler for one handler on an already registered
event: add_function consults complies_with, a failure joins the invalid
list, and any invalid handler makes register_handler raise ValueError. -/
def registerHandler (declared handler : List EvParam) : Except PyErr Unit :=
  if compliesWith handler declared then .ok () else .error .valueError

/-- The remap loop of EventRouter.__prepare_call: walk the declared
parameters; stop when the positional arguments are exhausted; skip a
parameter whose name is already a keyword; otherwise bind the next
positional argument to the parameter name.  Returns how many positional
arguments were consumed and the extended keyword list. -/
def remapLoop {V : Type} [Inhabited V] (params : List EvParam) (args : List V)
    (kwargs : List (String × V)) (idx : Nat) : Nat × List (String × V) :=
  match params with
  | [] => (idx, kwargs)
  | p :: rest =>
    if idx ≥ args.length then (idx, kwargs)
    else if kwargs.any (fun kv => kv.1 == p.name) then remapLoop rest args kwargs idx
    else remapLoop rest args (kwargs ++ [(p.name, args.getD idx default)]) (idx + 1)

/-- EventRouter.__prepare_call: with no positional arguments nothing moves;
otherwise the consumed leading positional arguments are removed and the
keyword list is extended, and the pair feeds the Event object.  The
original args and kwargs are returned unchanged to the handler calls. -/
def prepareCallEvent {V : Type} [Inhabited V] (sig : List EvParam) (args : List V)
    (kwargs : List (String × V)) : List V × List (String × V) :=
  if args.isEmpty then (args, kwargs)
  else
    let consumed := remapLoop sig args kwargs 0
    (args.drop consumed.1, consumed.2)

/-- The declared event signature (event, a, b=1, *args, **kwargs): event
and a are required, b carries a default, then the two variadics. -/
def declaredEvtSig : List EvParam :=
  [ { name := "event", required := true },
    { name := "a", required := true },
    { name := "b" },
    { name := "args", isArgs := true },
    { name := "kwargs", isKwargs := true } ]

/-- The candidate handler signature (event, **kwargs). -/
def handlerEvtKwargsSig : List EvParam :=
  [ { name := "event", required := true },
    { name := "kwargs", isKwargs := true } ]

/-- Claim C8, counterexample: the handler (event, **kwargs) does not comply
with the declared signature (event, a, b=1, *args, **kwargs), because the
declared signature accepts variadic positional arguments and the handler
does not; registering it therefore raises, and trigger can never invoke
it, let alone with keyword arguments a=5 and b=7. -/
theorem c8_counterexample :
    compliesWith handlerEvtKwargsSig declaredEvtSig = false
    ∧ registerHandler declaredEvtSig handlerEvtKwargsSig = .error .valueError := by
  refine ⟨by decide, by decide⟩

/-- Claim C8, amended: for the declared signature
(event, a, b=1, *args, **kwargs), the handler (event, **kwargs) is rejected
at registration with ValueError, so trigger("evt", caller, 5, b=7) invokes
no such handler; moreover the positional re-mapping in __prepare_call binds
the positional 5 to the FIRST declared parameter name, event, not to a
(the name a remains unbound), stores the result only in the Event object
as kwargs b=7, event=5, and EventFunctionGroup.trigger passes registered
handlers the original arguments (5,) and b=7 in any case. -/
theorem c8_amended_registration_rejected_and_remap_binds_event :
    registerHandler declaredEvtSig handlerEvtKwargsSig = .error .valueError
    ∧ prepareCallEvent declaredEvtSig [5] [("b", 7)] = ([], [("b", 7), ("event", 5)])
    ∧ ((prepareCallEvent declaredEvtSig [5] [("b", 7)]).2.any (fun kv => kv.1 == "a")) = false := by
  refine ⟨by decide, by decide, by decide⟩

end DMOD
